import Mathlib

/-!
Verification of the ITLX NEP-141 fungible-token contract (`src/lib.rs`).

The contract is a thin wrapper around the standard fungible-token ledger:
the wrapper contributes the session-vault restriction on `ft_transfer`,
the owner-gated `set_session_vault_id`, the burn log in
`ft_resolve_transfer` and the close log in `storage_unregister`.  The
ledger internals (`FungibleToken` from near-contract-standards) are not
part of the repository's sources; they are modelled from the spec
(sections 4.1-4.3), as marked on each definition.

Machine integers (u128 balances) are modelled as `Nat` with explicit
bound checks against `2^128 - 1` where the code checks for overflow.
A panic / rejected call is an `Except.error`; NEAR rolls back all state
changes of a failed call, so an error carries no state.
-/

namespace Itlx

/-- Largest representable u128 balance. -/
def U128MAX : Nat := 2 ^ 128 - 1

/-- Host-provided call context: caller (`predecessor_account_id`),
transaction signer (`signer_account_id`) and the attached deposit in
yoctoNEAR. -/
structure Env where
  predecessor : String
  signer : String
  attached_deposit : Nat
deriving DecidableEq

/-- Error taxonomy of the spec (section 7).  Each constructor stands for
one panic site of the code. -/
inductive Err where
  | AccountNotRegistered
  | InsufficientBalance
  | InsufficientDeposit
  | ExcessWithdrawal
  | NonZeroBalance
  | ZeroAmount
  | SelfTransfer
  | DeniedDestination
  | Overflow
  | InsufficientAttachedPayment
  | NotOwner
deriving DecidableEq

/-- The balance map: an entry exists iff the account is registered. -/
abbrev Accounts := List (String × Nat)

/-- Lookup of a registered account's balance (`accounts.get`). -/
def getBal : Accounts → String → Option Nat
  | [], _ => none
  | (k, v) :: rest, a => if k = a then some v else getBal rest a

/-- Update of an existing entry (`accounts.insert` after a lookup). -/
def setBal : Accounts → String → Nat → Accounts
  | [], _, _ => []
  | (k, v) :: rest, a, n => if k = a then (k, n) :: rest else (k, v) :: setBal rest a n

/-- Removal of an entry (`accounts.remove`). -/
def removeAcc : Accounts → String → Accounts
  | [], _ => []
  | (k, v) :: rest, a => if k = a then removeAcc rest a else (k, v) :: removeAcc rest a

/-- Sum of all registered balances. -/
def sumBal (l : Accounts) : Nat := (l.map (·.2)).sum

/-- Modelled from the spec: the `FungibleToken` ledger state from
near-contract-standards is not under src; section 3 gives its data model
(balance map plus total-supply counter). -/
structure FT where
  accounts : Accounts
  total_supply : Nat
deriving DecidableEq

/-- Contract state as declared in src/lib.rs (`Contract`): the ledger,
the optional session-vault reference and the owner identity.  The static
metadata carries no logic and is omitted. -/
structure Contract where
  token : FT
  session_vault_id : Option String
  owner : String
deriving DecidableEq

/-- Modelled from the spec: `internal_register_account` of the ledger is
not under src; section 4.2 creates the zero-balance entry. -/
def FT.internal_register_account (t : FT) (a : String) : FT :=
  { t with accounts := (a, 0) :: t.accounts }

/-- Modelled from the spec: ledger `credit` (section 4.1) is not under
src; fails when the account is unregistered or the balance would exceed
u128. -/
def FT.credit (t : FT) (a : String) (amount : Nat) : Except Err FT :=
  match getBal t.accounts a with
  | none => .error .AccountNotRegistered
  | some b =>
    if b + amount ≤ U128MAX then
      .ok { t with accounts := setBal t.accounts a (b + amount) }
    else .error .Overflow

/-- Modelled from the spec: ledger `debit` (section 4.1) is not under
src; fails when the account is unregistered or short of funds. -/
def FT.debit (t : FT) (a : String) (amount : Nat) : Except Err FT :=
  match getBal t.accounts a with
  | none => .error .AccountNotRegistered
  | some b =>
    if amount ≤ b then
      .ok { t with accounts := setBal t.accounts a (b - amount) }
    else .error .InsufficientBalance

/-- Modelled from the spec: the genesis `mint` (section 4.1) is not under
src; registers the account if needed, credits it and increases total
supply. -/
def FT.mint (t : FT) (a : String) (amount : Nat) : FT :=
  match getBal t.accounts a with
  | some b =>
    { accounts := setBal t.accounts a (b + amount)
      total_supply := t.total_supply + amount }
  | none =>
    let t1 := t.internal_register_account a
    { accounts := setBal t1.accounts a amount
      total_supply := t1.total_supply + amount }

/-- `Contract::new` from src/lib.rs: records the transaction signer as
owner, leaves the vault unset, registers `owner_id` and mints the whole
initial supply to it. -/
def Contract.new (env : Env) (owner_id : String) (total_supply : Nat) : Contract :=
  let t0 : FT := { accounts := [], total_supply := 0 }
  let t1 := t0.internal_register_account owner_id
  { token := t1.mint owner_id total_supply
    session_vault_id := none
    owner := env.signer }

/-- `set_session_vault_id` from src/lib.rs: requires the caller to be the
recorded owner, then overwrites the vault reference. -/
def Contract.set_session_vault_id (env : Env) (c : Contract) (v : String) :
    Except Err Contract :=
  if env.predecessor = c.owner then
    .ok { c with session_vault_id := some v }
  else .error .NotOwner

/-- `ft_balance_of`: 0 for an unregistered account. -/
def Contract.ft_balance_of (c : Contract) (a : String) : Nat :=
  (getBal c.token.accounts a).getD 0

/-- `ft_total_supply`. -/
def Contract.ft_total_supply (c : Contract) : Nat :=
  c.token.total_supply

/-- Modelled from the spec: the ledger's local transfer
(`FungibleToken::ft_transfer`, section 4.3) is not under src.  Requires
exactly one yoctoNEAR attached, a positive amount and distinct sender and
receiver, then debits the caller and credits the receiver. -/
def FT.transferTok (env : Env) (t : FT) (receiver : String) (amount : Nat) :
    Except Err FT :=
  if env.attached_deposit ≠ 1 then .error .InsufficientAttachedPayment
  else if amount = 0 then .error .ZeroAmount
  else if env.predecessor = receiver then .error .SelfTransfer
  else
    match t.debit env.predecessor amount with
    | .error e => .error e
    | .ok t1 => t1.credit receiver amount

/-- `ft_transfer` from src/lib.rs: when a session vault is configured,
transfers whose receiver is the vault are rejected before the ledger is
consulted; otherwise the call is delegated to the ledger transfer. -/
def Contract.ft_transfer (env : Env) (c : Contract) (receiver : String) (amount : Nat) :
    Except Err Contract :=
  match c.session_vault_id with
  | some v =>
    if receiver = v then .error .DeniedDestination
    else (FT.transferTok env c.token receiver amount).map fun t => { c with token := t }
  | none =>
    (FT.transferTok env c.token receiver amount).map fun t => { c with token := t }

/-- `ft_transfer_call` from src/lib.rs delegates straight to the ledger
with no vault check; the synchronous phase 1 (modelled from the spec,
section 4.3: preconditions identical to the local transfer except the
destination-denial check) provisionally moves the funds. -/
def Contract.ft_transfer_call (env : Env) (c : Contract) (receiver : String) (amount : Nat) :
    Except Err Contract :=
  (FT.transferTok env c.token receiver amount).map fun t => { c with token := t }

/-- Reply of the receiver's ft_on_transfer promise as seen by the
resolution callback: either a value reporting the unused amount, or a
failed / malformed outcome. -/
inductive Reply where
  | value (unused : Nat)
  | failed
deriving DecidableEq

/-- Modelled from the spec: the unused amount reported by the receiver,
clamped to the transferred amount; failed or malformed replies count as
a full refund (section 4.3 step 4). -/
def replyUnused (amount : Nat) : Reply → Nat
  | .value u => min u amount
  | .failed => amount

/-- The refund resolution settles on: the reported unused amount capped
by the receiver's current balance (section 4.3 step 4). -/
def resolveRefund (c : Contract) (receiver : String) (amount : Nat) (reply : Reply) : Nat :=
  min (replyUnused amount reply) ((getBal c.token.accounts receiver).getD 0)

/-- The log line emitted by src/lib.rs `ft_resolve_transfer` when a
refund is burned. -/
def burnLog (sender : String) (burned : Nat) : String :=
  "Account @" ++ sender ++ " burned " ++ toString burned

/-- Result of the resolution callback: the post state, the used amount
returned to the original caller, the burned amount and the emitted
logs. -/
structure ResolveOutcome where
  state : Contract
  used_amount : Nat
  burned_amount : Nat
  logs : List String
deriving DecidableEq

/-- `ft_resolve_transfer` from src/lib.rs around the ledger resolution.
Modelled from the spec: `internal_ft_resolve_transfer` is not under src;
section 4.3 steps 4-6: debit the receiver by the refund, credit the
sender when still registered, otherwise burn the refund; the burn log
itself is the wrapper's own code. -/
def Contract.ft_resolve_transfer (c : Contract) (sender receiver : String)
    (amount : Nat) (reply : Reply) : ResolveOutcome :=
  let refund := resolveRefund c receiver amount reply
  if refund = 0 then
    { state := c, used_amount := amount - refund, burned_amount := 0, logs := [] }
  else
    let recvBal := (getBal c.token.accounts receiver).getD 0
    let acc1 := setBal c.token.accounts receiver (recvBal - refund)
    match getBal acc1 sender with
    | some sb =>
      { state := { c with token := { accounts := setBal acc1 sender (sb + refund)
                                     total_supply := c.token.total_supply } }
        used_amount := amount - refund
        burned_amount := 0
        logs := [] }
    | none =>
      { state := { c with token := { accounts := acc1
                                     total_supply := c.token.total_supply - refund } }
        used_amount := amount - refund
        burned_amount := refund
        logs := [burnLog sender refund] }

/-- Storage balance record returned by the storage-management calls. -/
structure StorageBalance where
  total : Nat
  available : Nat
deriving DecidableEq

/-- Modelled from the spec: the fixed native-currency cost of one
balance entry (section 4.2); the concrete figure is the standard
ledger's single-entry cost in yoctoNEAR, its exact value plays no role
in any claim. -/
def storageCostMin : Nat := 1250000000000000000000

/-- Bounds record returned by `storage_balance_bounds`. -/
structure StorageBalanceBounds where
  min : Nat
  max : Nat
deriving DecidableEq

/-- `storage_balance_bounds`: equal bounds, both the single-entry
cost. -/
def Contract.storage_balance_bounds (_ : Contract) : StorageBalanceBounds :=
  { min := storageCostMin, max := storageCostMin }

/-- `storage_balance_of`: `some {total = min, available = 0}` for a
registered account, `none` otherwise. -/
def Contract.storage_balance_of (c : Contract) (a : String) : Option StorageBalance :=
  (getBal c.token.accounts a).map fun _ => { total := storageCostMin, available := 0 }

/-- Result of `storage_deposit`: the post state, the reported storage
balance and the refunded portion of the attached payment. -/
structure DepositOutcome where
  state : Contract
  balance : StorageBalance
  refund : Nat
deriving DecidableEq

/-- `storage_deposit` from src/lib.rs around the ledger registration.
Modelled from the spec: the ledger's `storage_deposit` is not under src;
section 4.2 `register`: an already registered account gets the whole
payment refunded and the call succeeds; a new account needs the payment
to cover the entry cost and gets the excess refunded. -/
def Contract.storage_deposit (env : Env) (c : Contract) (account_id : Option String)
    (_registration_only : Option Bool) : Except Err DepositOutcome :=
  let account := account_id.getD env.predecessor
  match getBal c.token.accounts account with
  | some _ =>
    .ok { state := c
          balance := { total := storageCostMin, available := 0 }
          refund := env.attached_deposit }
  | none =>
    if env.attached_deposit < storageCostMin then .error .InsufficientDeposit
    else
      .ok { state := { c with token := c.token.internal_register_account account }
            balance := { total := storageCostMin, available := 0 }
            refund := env.attached_deposit - storageCostMin }

/-- `storage_withdraw` from src/lib.rs around the ledger withdrawal.
Modelled from the spec: the ledger's `storage_withdraw` is not under
src; section 4.2 `withdraw`: one yoctoNEAR required, the caller must be
registered, any nonzero requested amount exceeds the always-zero
headroom, the default or zero request is a no-op. -/
def Contract.storage_withdraw (env : Env) (c : Contract) (amount : Option Nat) :
    Except Err (Contract × StorageBalance) :=
  if env.attached_deposit ≠ 1 then .error .InsufficientAttachedPayment
  else
    match getBal c.token.accounts env.predecessor with
    | none => .error .AccountNotRegistered
    | some _ =>
      match amount with
      | some amt =>
        if 0 < amt then .error .ExcessWithdrawal
        else .ok (c, { total := storageCostMin, available := 0 })
      | none => .ok (c, { total := storageCostMin, available := 0 })

/-- The log line emitted by src/lib.rs `storage_unregister` when an
account is closed, carrying the burned balance. -/
def closedLog (a : String) (b : Nat) : String :=
  "Closed @" ++ a ++ " with " ++ toString b

/-- Result of `storage_unregister`: the post state, the boolean the
wrapper returns and the emitted logs. -/
structure UnregisterOutcome where
  state : Contract
  result : Bool
  logs : List String
deriving DecidableEq

/-- `storage_unregister` from src/lib.rs around the ledger
unregistration.  Modelled from the spec: `internal_storage_unregister`
is not under src; per section 6 an absent account yields `false` (the
wrapper's else branch), a registered account with nonzero balance needs
`force` or the call fails, and a removal burns the remaining balance;
the close log is the wrapper's own code. -/
def Contract.storage_unregister (env : Env) (c : Contract) (force : Option Bool) :
    Except Err UnregisterOutcome :=
  if env.attached_deposit ≠ 1 then .error .InsufficientAttachedPayment
  else
    match getBal c.token.accounts env.predecessor with
    | none => .ok { state := c, result := false, logs := [] }
    | some b =>
      if b = 0 ∨ force.getD false then
        .ok { state := { c with token :=
                { accounts := removeAcc c.token.accounts env.predecessor
                  total_supply := c.token.total_supply - b } }
              result := true
              logs := [closedLog env.predecessor b] }
      else .error .NonZeroBalance

/-- One top-level mutating entry point of the contract. -/
inductive Op where
  | setVault (env : Env) (v : String)
  | transfer (env : Env) (receiver : String) (amount : Nat)
  | transferCall (env : Env) (receiver : String) (amount : Nat)
  | resolve (sender receiver : String) (amount : Nat) (reply : Reply)
  | stDeposit (env : Env) (account : Option String) (ro : Option Bool)
  | stWithdraw (env : Env) (amount : Option Nat)
  | stUnregister (env : Env) (force : Option Bool)

/-- Effect of one entry point on the persisted state: a failed call
rolls back, a successful one commits its post state. -/
def Contract.applyOp (c : Contract) : Op → Contract
  | .setVault env v =>
    match c.set_session_vault_id env v with
    | .ok c' => c'
    | .error _ => c
  | .transfer env r n =>
    match c.ft_transfer env r n with
    | .ok c' => c'
    | .error _ => c
  | .transferCall env r n =>
    match c.ft_transfer_call env r n with
    | .ok c' => c'
    | .error _ => c
  | .resolve s r n reply => (c.ft_resolve_transfer s r n reply).state
  | .stDeposit env a ro =>
    match c.storage_deposit env a ro with
    | .ok o => o.state
    | .error _ => c
  | .stWithdraw env a =>
    match c.storage_withdraw env a with
    | .ok p => p.1
    | .error _ => c
  | .stUnregister env f =>
    match c.storage_unregister env f with
    | .ok o => o.state
    | .error _ => c

/-- Sequential execution of entry points. -/
def Contract.applyOps (c : Contract) : List Op → Contract
  | [] => c
  | op :: rest => (c.applyOp op).applyOps rest

/-- Sequential execution of `ft_transfer` calls (sender, receiver,
amount per call); a rejected call leaves the state untouched. -/
def Contract.applyTransfers (c : Contract) : List (Env × String × Nat) → Contract
  | [] => c
  | (env, r, n) :: rest =>
    (match c.ft_transfer env r n with
     | .ok c' => c'
     | .error _ => c).applyTransfers rest

/-- Example call context: the genesis signer calling with one yoctoNEAR
attached. -/
def envOwner : Env :=
  { predecessor := "genesis-signer", signer := "genesis-signer", attached_deposit := 1 }

/-- Example call context: alice calling with one yoctoNEAR attached. -/
def envAlice : Env :=
  { predecessor := "alice", signer := "genesis-signer", attached_deposit := 1 }

/-- Example call context: bob calling with one yoctoNEAR attached. -/
def envBob : Env :=
  { predecessor := "bob", signer := "genesis-signer", attached_deposit := 1 }

/-- Example call context: carol (never registered below) with one
yoctoNEAR attached. -/
def envCarol : Env :=
  { predecessor := "carol", signer := "genesis-signer", attached_deposit := 1 }

/-- Example state: alice holds 70, bob 30; the session vault is set to
a dedicated vault account. -/
def exContract : Contract :=
  { token := { accounts := [("alice", 70), ("bob", 30)], total_supply := 100 }
    session_vault_id := some "vault"
    owner := "genesis-signer" }

/-- Example state whose configured session vault is alice herself. -/
def exVaultAlice : Contract :=
  { token := { accounts := [("alice", 70), ("bob", 30)], total_supply := 100 }
    session_vault_id := some "alice"
    owner := "genesis-signer" }

theorem getBal_setBal_self {l : Accounts} {a : String} {b : Nat} (n : Nat)
    (h : getBal l a = some b) : getBal (setBal l a n) a = some n := by
  induction l with
  | nil => simp [getBal] at h
  | cons p rest ih =>
    obtain ⟨k, v⟩ := p
    by_cases hk : k = a
    · subst hk
      simp [getBal, setBal]
    · simp [getBal, setBal, hk] at h ⊢
      exact ih h

theorem getBal_setBal_ne {a a' : String} (l : Accounts) (n : Nat) (h : a ≠ a') :
    getBal (setBal l a n) a' = getBal l a' := by
  induction l with
  | nil => simp [setBal]
  | cons p rest ih =>
    obtain ⟨k, v⟩ := p
    by_cases hk : k = a
    · subst hk
      simp [getBal, setBal, h]
    · simp [getBal, setBal, hk, ih]

theorem sumBal_setBal {l : Accounts} {a : String} {b : Nat} (n : Nat)
    (h : getBal l a = some b) : sumBal (setBal l a n) + b = sumBal l + n := by
  induction l with
  | nil => simp [getBal] at h
  | cons p rest ih =>
    obtain ⟨k, v⟩ := p
    by_cases hk : k = a
    · subst hk
      simp [getBal] at h
      subst h
      simp [setBal, sumBal]
      omega
    · simp [getBal, hk] at h
      have := ih h
      simp [setBal, sumBal, hk] at this ⊢
      omega

theorem getBal_le_sumBal {l : Accounts} {a : String} {b : Nat}
    (h : getBal l a = some b) : b ≤ sumBal l := by
  induction l with
  | nil => simp [getBal] at h
  | cons p rest ih =>
    obtain ⟨k, v⟩ := p
    by_cases hk : k = a
    · subst hk
      simp [getBal] at h
      simp [sumBal]
      omega
    · simp [getBal, hk] at h
      have := ih h
      simp [sumBal] at this ⊢
      omega

theorem getBal_removeAcc_self (l : Accounts) (a : String) :
    getBal (removeAcc l a) a = none := by
  induction l with
  | nil => simp [removeAcc, getBal]
  | cons p rest ih =>
    obtain ⟨k, v⟩ := p
    by_cases hk : k = a
    · simp [removeAcc, hk, ih]
    · simp [removeAcc, getBal, hk, ih]

theorem debit_ok {t t' : FT} {a : String} {n : Nat} (h : t.debit a n = .ok t') :
    ∃ b, getBal t.accounts a = some b ∧ n ≤ b ∧
      t'.accounts = setBal t.accounts a (b - n) ∧
      t'.total_supply = t.total_supply := by
  unfold FT.debit at h
  split at h
  · cases h
  · rename_i b hg
    split at h
    · rename_i hn
      cases h
      exact ⟨b, hg, hn, rfl, rfl⟩
    · cases h

theorem credit_ok {t t' : FT} {a : String} {n : Nat} (h : t.credit a n = .ok t') :
    ∃ b, getBal t.accounts a = some b ∧ b + n ≤ U128MAX ∧
      t'.accounts = setBal t.accounts a (b + n) ∧
      t'.total_supply = t.total_supply := by
  unfold FT.credit at h
  split at h
  · cases h
  · rename_i b hg
    split at h
    · rename_i hn
      cases h
      exact ⟨b, hg, hn, rfl, rfl⟩
    · cases h

theorem transferTok_ok {env : Env} {t t' : FT} {r : String} {n : Nat}
    (h : FT.transferTok env t r n = .ok t') :
    t'.total_supply = t.total_supply ∧ sumBal t'.accounts = sumBal t.accounts := by
  unfold FT.transferTok at h
  by_cases hd : env.attached_deposit ≠ 1
  · rw [if_pos hd] at h; cases h
  · rw [if_neg hd] at h
    by_cases hz : n = 0
    · rw [if_pos hz] at h; cases h
    · rw [if_neg hz] at h
      by_cases hs : env.predecessor = r
      · rw [if_pos hs] at h; cases h
      · rw [if_neg hs] at h
        cases hdeb : t.debit env.predecessor n with
        | error e => rw [hdeb] at h; cases h
        | ok t1 =>
          rw [hdeb] at h
          obtain ⟨bs, hbs, hle, hacc1, hsup1⟩ := debit_ok hdeb
          obtain ⟨br, hbr, hov, hacc2, hsup2⟩ := credit_ok h
          refine ⟨hsup2.trans hsup1, ?_⟩
          have h1 : sumBal t1.accounts + bs = sumBal t.accounts + (bs - n) := by
            rw [hacc1]
            exact sumBal_setBal (bs - n) hbs
          have h2 : sumBal t'.accounts + br = sumBal t1.accounts + (br + n) := by
            rw [hacc2]
            exact sumBal_setBal (br + n) hbr
          omega

theorem ft_transfer_ok_conserves {env : Env} {c c' : Contract} {r : String} {n : Nat}
    (h : c.ft_transfer env r n = .ok c') :
    c'.token.total_supply = c.token.total_supply ∧
      sumBal c'.token.accounts = sumBal c.token.accounts := by
  unfold Contract.ft_transfer at h
  split at h
  · split at h
    · cases h
    · cases ht : FT.transferTok env c.token r n with
      | error e => rw [ht] at h; simp only [Except.map] at h; cases h
      | ok t' =>
        rw [ht] at h
        simp only [Except.map] at h
        cases h
        exact transferTok_ok ht
  · cases ht : FT.transferTok env c.token r n with
    | error e => rw [ht] at h; simp only [Except.map] at h; cases h
    | ok t' =>
      rw [ht] at h
      simp only [Except.map] at h
      cases h
      exact transferTok_ok ht

theorem applyTransfers_conserves (ops : List (Env × String × Nat)) (c : Contract) :
    (c.applyTransfers ops).token.total_supply = c.token.total_supply ∧
      sumBal (c.applyTransfers ops).token.accounts = sumBal c.token.accounts := by
  induction ops generalizing c with
  | nil => exact ⟨rfl, rfl⟩
  | cons p rest ih =>
    obtain ⟨env, r, n⟩ := p
    cases ht : c.ft_transfer env r n with
    | ok c1 =>
      have h1 := ft_transfer_ok_conserves ht
      have h2 := ih c1
      simp only [Contract.applyTransfers, ht]
      exact ⟨h2.1.trans h1.1, h2.2.trans h1.2⟩
    | error e =>
      simp only [Contract.applyTransfers, ht]
      exact ih c

theorem debit_ne_denied (t : FT) (a : String) (n : Nat) :
    t.debit a n ≠ .error .DeniedDestination := by
  unfold FT.debit
  split
  · simp
  · split <;> simp

theorem credit_ne_denied (t : FT) (a : String) (n : Nat) :
    t.credit a n ≠ .error .DeniedDestination := by
  unfold FT.credit
  split
  · simp
  · split <;> simp

theorem transferTok_ne_denied (env : Env) (t : FT) (r : String) (n : Nat) :
    FT.transferTok env t r n ≠ .error .DeniedDestination := by
  unfold FT.transferTok
  split
  · simp
  · split
    · simp
    · split
      · simp
      · split
        · rename_i e heq
          intro hcon
          injection hcon with he
          subst he
          exact debit_ne_denied t env.predecessor n heq
        · rename_i t1 heq
          exact credit_ne_denied t1 r n

theorem ft_transfer_ok_frame {env : Env} {c c' : Contract} {r : String} {n : Nat}
    (h : c.ft_transfer env r n = .ok c') :
    c'.session_vault_id = c.session_vault_id ∧ c'.owner = c.owner := by
  unfold Contract.ft_transfer at h
  split at h
  · split at h
    · cases h
    · cases ht : FT.transferTok env c.token r n with
      | error e => rw [ht] at h; simp only [Except.map] at h; cases h
      | ok t' =>
        rw [ht] at h
        simp only [Except.map] at h
        cases h
        exact ⟨rfl, rfl⟩
  · cases ht : FT.transferTok env c.token r n with
    | error e => rw [ht] at h; simp only [Except.map] at h; cases h
    | ok t' =>
      rw [ht] at h
      simp only [Except.map] at h
      cases h
      exact ⟨rfl, rfl⟩

theorem ft_transfer_call_ok_frame {env : Env} {c c' : Contract} {r : String} {n : Nat}
    (h : c.ft_transfer_call env r n = .ok c') :
    c'.session_vault_id = c.session_vault_id ∧ c'.owner = c.owner := by
  unfold Contract.ft_transfer_call at h
  cases ht : FT.transferTok env c.token r n with
  | error e => rw [ht] at h; simp only [Except.map] at h; cases h
  | ok t' =>
    rw [ht] at h
    simp only [Except.map] at h
    cases h
    exact ⟨rfl, rfl⟩

theorem ft_resolve_transfer_frame (c : Contract) (s r : String) (n : Nat) (reply : Reply) :
    (c.ft_resolve_transfer s r n reply).state.session_vault_id = c.session_vault_id := by
  simp only [Contract.ft_resolve_transfer]
  split
  · rfl
  · split <;> rfl

theorem storage_deposit_ok_frame {env : Env} {c : Contract} {aid : Option String}
    {ro : Option Bool} {o : DepositOutcome}
    (h : c.storage_deposit env aid ro = .ok o) :
    o.state.session_vault_id = c.session_vault_id := by
  simp only [Contract.storage_deposit] at h
  split at h
  · cases h; rfl
  · split at h
    · cases h
    · cases h; rfl

theorem storage_withdraw_ok_frame {env : Env} {c : Contract} {amt : Option Nat}
    {p : Contract × StorageBalance} (h : c.storage_withdraw env amt = .ok p) :
    p.1 = c := by
  unfold Contract.storage_withdraw at h
  split at h
  · cases h
  · split at h
    · cases h
    · split at h
      · split at h
        · cases h
        · cases h; rfl
      · cases h; rfl

theorem storage_unregister_ok_frame {env : Env} {c : Contract} {f : Option Bool}
    {o : UnregisterOutcome} (h : c.storage_unregister env f = .ok o) :
    o.state.session_vault_id = c.session_vault_id := by
  unfold Contract.storage_unregister at h
  split at h
  · cases h
  · split at h
    · cases h; rfl
    · split at h
      · cases h; rfl
      · cases h

theorem applyOp_vault_some (c : Contract) (op : Op) (v : String)
    (hv : c.session_vault_id = some v) :
    ∃ w, (c.applyOp op).session_vault_id = some w := by
  cases op with
  | setVault env u =>
    by_cases h : env.predecessor = c.owner
    · refine ⟨u, ?_⟩
      simp [Contract.applyOp, Contract.set_session_vault_id, h]
    · refine ⟨v, ?_⟩
      simp [Contract.applyOp, Contract.set_session_vault_id, h, hv]
  | transfer env r n =>
    refine ⟨v, ?_⟩
    simp only [Contract.applyOp]
    split
    · rename_i c' ht
      rw [(ft_transfer_ok_frame ht).1]
      exact hv
    · exact hv
  | transferCall env r n =>
    refine ⟨v, ?_⟩
    simp only [Contract.applyOp]
    split
    · rename_i c' ht
      rw [(ft_transfer_call_ok_frame ht).1]
      exact hv
    · exact hv
  | resolve s r n reply =>
    refine ⟨v, ?_⟩
    simp only [Contract.applyOp]
    rw [ft_resolve_transfer_frame]
    exact hv
  | stDeposit env a ro =>
    refine ⟨v, ?_⟩
    simp only [Contract.applyOp]
    split
    · rename_i o ht
      rw [storage_deposit_ok_frame ht]
      exact hv
    · exact hv
  | stWithdraw env a =>
    refine ⟨v, ?_⟩
    simp only [Contract.applyOp]
    split
    · rename_i p ht
      rw [storage_withdraw_ok_frame ht]
      exact hv
    · exact hv
  | stUnregister env f =>
    refine ⟨v, ?_⟩
    simp only [Contract.applyOp]
    split
    · rename_i o ht
      rw [storage_unregister_ok_frame ht]
      exact hv
    · exact hv

/-- Claim C2: starting from the initialized state, after any sequence of
ft_transfer calls (each either succeeding or rolling back) the sum of
all registered balances equals ft_total_supply, and the total supply
still equals the initial supply, so no ft_transfer call ever changed
it. -/
theorem ft_transfer_conservation (env0 : Env) (owner_id : String) (ts : Nat)
    (ops : List (Env × String × Nat)) :
    sumBal ((Contract.new env0 owner_id ts).applyTransfers ops).token.accounts
      = ((Contract.new env0 owner_id ts).applyTransfers ops).ft_total_supply ∧
    ((Contract.new env0 owner_id ts).applyTransfers ops).ft_total_supply = ts := by
  have hsup : (Contract.new env0 owner_id ts).token.total_supply = ts := by
    simp [Contract.new, FT.mint, FT.internal_register_account, getBal]
  have hsum : sumBal (Contract.new env0 owner_id ts).token.accounts = ts := by
    simp [Contract.new, FT.mint, FT.internal_register_account, getBal, setBal, sumBal]
  obtain ⟨h1, h2⟩ := applyTransfers_conserves ops (Contract.new env0 owner_id ts)
  unfold Contract.ft_total_supply
  exact ⟨by rw [h2, hsum, h1, hsup], by rw [h1, hsup]⟩

/-- Claim C3: once a session vault V is configured, every ft_transfer
whose receiver is V is rejected with DeniedDestination, for every caller
and amount, while ft_transfer_call is never rejected with
DeniedDestination: the vault is consulted only on the local-transfer
path. -/
theorem vault_denied_for_local_transfer_only (c : Contract) (V : String)
    (hv : c.session_vault_id = some V) (env : Env) (n m : Nat) (r : String) :
    c.ft_transfer env V n = .error .DeniedDestination ∧
      c.ft_transfer_call env r m ≠ .error .DeniedDestination := by
  constructor
  · simp [Contract.ft_transfer, hv]
  · intro hcon
    unfold Contract.ft_transfer_call at hcon
    cases ht : FT.transferTok env c.token r m with
    | error e =>
      rw [ht] at hcon
      simp only [Except.map] at hcon
      injection hcon with he
      subst he
      exact transferTok_ne_denied env c.token r m ht
    | ok t' =>
      rw [ht] at hcon
      simp only [Except.map] at hcon
      cases hcon

/-- Claim C3 witness at a concrete state with vault set. -/
theorem vault_denied_witness :
    exContract.ft_transfer envAlice "vault" 5 = .error .DeniedDestination ∧
      exContract.ft_transfer_call envAlice "vault" 5 ≠ .error .DeniedDestination :=
  vault_denied_for_local_transfer_only exContract "vault" rfl envAlice 5 5 "vault"

/-- Claim C6: the recorded owner identity is the init call's transaction
signer, not the owner_id argument; set_session_vault_id succeeds exactly
when the caller equals that signer, replacing the vault reference. -/
theorem owner_is_signer_and_gates_vault (env0 env1 : Env) (owner_id : String)
    (ts : Nat) (v : String) :
    (Contract.new env0 owner_id ts).owner = env0.signer ∧
    (Contract.new env0 owner_id ts).set_session_vault_id env1 v
      = if env1.predecessor = env0.signer
        then .ok { Contract.new env0 owner_id ts with session_vault_id := some v }
        else .error .NotOwner := by
  refine ⟨rfl, ?_⟩
  by_cases h : env1.predecessor = env0.signer <;>
    simp [Contract.set_session_vault_id, Contract.new, h]

/-- Claim C9 (amended): with one yoctoNEAR attached, a positive-amount
self transfer is always rejected with SelfTransfer whenever the account
is not itself the configured session vault (the rejected call leaves no
state). -/
theorem self_transfer_rejected (env : Env) (c : Contract) (a : String) (n : Nat)
    (hp : env.predecessor = a) (hdep : env.attached_deposit = 1) (hn : 0 < n)
    (hv : c.session_vault_id ≠ some a) :
    c.ft_transfer env a n = .error .SelfTransfer := by
  have hne : n ≠ 0 := Nat.pos_iff_ne_zero.mp hn
  have htok : FT.transferTok env c.token a n = .error .SelfTransfer := by
    simp [FT.transferTok, hdep, hp, hne]
  cases hvv : c.session_vault_id with
  | none => simp [Contract.ft_transfer, hvv, htok, Except.map]
  | some v =>
    have hav : a ≠ v := by
      intro h
      subst h
      exact hv hvv
    simp [Contract.ft_transfer, hvv, hav, htok, Except.map]

/-- Claim C9 witness: alice to alice with the vault pointing
elsewhere. -/
theorem self_transfer_rejected_witness :
    exContract.ft_transfer envAlice "alice" 5 = .error .SelfTransfer :=
  self_transfer_rejected envAlice exContract "alice" 5 rfl rfl (by decide) (by decide)

/-- Claim C9 counterexample: when the sender's own account is the
configured session vault, the self transfer is rejected with
DeniedDestination, not SelfTransfer. -/
theorem self_transfer_vault_cex :
    exVaultAlice.ft_transfer envAlice "alice" 5 = .error .DeniedDestination ∧
      exVaultAlice.ft_transfer envAlice "alice" 5 ≠ .error .SelfTransfer := by
  have h : exVaultAlice.ft_transfer envAlice "alice" 5 = .error .DeniedDestination := by
    rfl
  refine ⟨h, ?_⟩
  rw [h]
  simp

/-- Claim C10: once the session vault is set to some account, it stays
set across every sequence of entry points: operations either leave it
unchanged or (set_session_vault_id) replace it by another account, and
none resets it to none. -/
theorem session_vault_never_cleared (c : Contract) (ops : List Op) (v : String)
    (hv : c.session_vault_id = some v) :
    ∃ w, (c.applyOps ops).session_vault_id = some w := by
  induction ops generalizing c v with
  | nil => exact ⟨v, hv⟩
  | cons op rest ih =>
    obtain ⟨w, hw⟩ := applyOp_vault_some c op v hv
    exact ih (c.applyOp op) w hw

/-- Claim C10 witness: the vault survives a transfer and a withdrawal. -/
theorem session_vault_never_cleared_witness :
    ∃ w, (exContract.applyOps
      [Op.transfer envAlice "bob" 5, Op.stWithdraw envBob none]).session_vault_id
        = some w :=
  session_vault_never_cleared exContract
    [Op.transfer envAlice "bob" 5, Op.stWithdraw envBob none] "vault" rfl

/-- Claim C4: a registered caller with nonzero balance b forcing
unregistration succeeds, removes the balance entry (ft_balance_of drops
to 0), decreases total supply by exactly b and logs the burned
amount. -/
theorem storage_unregister_force_burns (env : Env) (c : Contract) (b : Nat)
    (hdep : env.attached_deposit = 1)
    (hb : getBal c.token.accounts env.predecessor = some b) (_hpos : 0 < b)
    (hsum : sumBal c.token.accounts = c.token.total_supply) :
    ∃ o, c.storage_unregister env (some true) = .ok o ∧
      o.result = true ∧
      getBal o.state.token.accounts env.predecessor = none ∧
      o.state.ft_balance_of env.predecessor = 0 ∧
      o.state.ft_total_supply + b = c.ft_total_supply ∧
      o.logs = [closedLog env.predecessor b] := by
  have hble : b ≤ c.token.total_supply := hsum ▸ getBal_le_sumBal hb
  have hcall : c.storage_unregister env (some true)
      = .ok { state := { c with token :=
                { accounts := removeAcc c.token.accounts env.predecessor
                  total_supply := c.token.total_supply - b } }
              result := true
              logs := [closedLog env.predecessor b] } := by
    simp [Contract.storage_unregister, hdep, hb]
  refine ⟨_, hcall, rfl, getBal_removeAcc_self _ _, ?_, ?_, rfl⟩
  · simp [Contract.ft_balance_of, getBal_removeAcc_self]
  · simp only [Contract.ft_total_supply]
    omega

/-- Claim C4 witness: alice (balance 70) force-unregisters. -/
theorem storage_unregister_force_burns_witness :
    ∃ o, exContract.storage_unregister envAlice (some true) = .ok o ∧
      o.result = true ∧
      getBal o.state.token.accounts envAlice.predecessor = none ∧
      o.state.ft_balance_of envAlice.predecessor = 0 ∧
      o.state.ft_total_supply + 70 = exContract.ft_total_supply ∧
      o.logs = [closedLog envAlice.predecessor 70] :=
  storage_unregister_force_burns envAlice exContract 70 rfl (by decide) (by decide)
    (by decide)

/-- Claim C5 (amended): storage_unregister by an unregistered caller
with one yoctoNEAR attached does not fail: it succeeds, returns false
and leaves the state unchanged with no log. -/
theorem storage_unregister_absent_returns_false (env : Env) (c : Contract)
    (force : Option Bool) (hdep : env.attached_deposit = 1)
    (habs : getBal c.token.accounts env.predecessor = none) :
    c.storage_unregister env force
      = .ok { state := c, result := false, logs := [] } := by
  simp [Contract.storage_unregister, hdep, habs]

/-- Claim C5 witness: carol is not registered in the example state. -/
theorem storage_unregister_absent_witness :
    exContract.storage_unregister envCarol none
      = .ok { state := exContract, result := false, logs := [] } :=
  storage_unregister_absent_returns_false envCarol exContract none rfl (by decide)

/-- Claim C5 counterexample: for the unregistered caller carol the call
returns false rather than failing with AccountNotRegistered. -/
theorem storage_unregister_absent_cex :
    exContract.storage_unregister envCarol none ≠ .error .AccountNotRegistered ∧
      exContract.storage_unregister envCarol none
        = .ok { state := exContract, result := false, logs := [] } := by
  have h : exContract.storage_unregister envCarol none
      = .ok { state := exContract, result := false, logs := [] } := by rfl
  refine ⟨?_, h⟩
  rw [h]
  simp

/-- Claim C7: storage_deposit for an already registered account succeeds,
refunds the entire attached payment and leaves the state, hence the
ledger and the account's storage balance, unchanged. -/
theorem storage_deposit_idempotent (env : Env) (c : Contract)
    (account_id : Option String) (ro : Option Bool) (b : Nat)
    (hreg : getBal c.token.accounts (account_id.getD env.predecessor) = some b) :
    c.storage_deposit env account_id ro
      = .ok { state := c
              balance := { total := storageCostMin, available := 0 }
              refund := env.attached_deposit } ∧
    c.storage_balance_of (account_id.getD env.predecessor)
      = some { total := storageCostMin, available := 0 } := by
  constructor
  · simp [Contract.storage_deposit, hreg]
  · simp [Contract.storage_balance_of, hreg]

/-- Claim C7 witness: depositing again for the registered bob. -/
theorem storage_deposit_idempotent_witness :
    exContract.storage_deposit envAlice (some "bob") none
      = .ok { state := exContract
              balance := { total := storageCostMin, available := 0 }
              refund := envAlice.attached_deposit } ∧
    exContract.storage_balance_of ((some "bob").getD envAlice.predecessor)
      = some { total := storageCostMin, available := 0 } :=
  storage_deposit_idempotent envAlice exContract (some "bob") none 30 (by decide)

/-- Claim C8: for a registered caller with one yoctoNEAR attached, any
nonzero withdrawal request fails with ExcessWithdrawal, since the equal
bounds leave zero available headroom, while the default request succeeds
as a no-op returning total equal to the minimum bound and zero
available. -/
theorem storage_withdraw_zero_headroom (env : Env) (c : Contract) (b amt : Nat)
    (hdep : env.attached_deposit = 1)
    (hreg : getBal c.token.accounts env.predecessor = some b)
    (hamt : 0 < amt) :
    c.storage_withdraw env (some amt) = .error .ExcessWithdrawal ∧
    c.storage_withdraw env none
      = .ok (c, { total := (c.storage_balance_bounds).min, available := 0 }) ∧
    (c.storage_balance_bounds).min = (c.storage_balance_bounds).max := by
  refine ⟨?_, ?_, rfl⟩
  · simp [Contract.storage_withdraw, hdep, hreg, hamt]
  · simp [Contract.storage_withdraw, hdep, hreg, Contract.storage_balance_bounds]

/-- Claim C8 witness: bob withdrawing 3 fails, the default request is a
no-op. -/
theorem storage_withdraw_zero_headroom_witness :
    exContract.storage_withdraw envBob (some 3) = .error .ExcessWithdrawal ∧
    exContract.storage_withdraw envBob none
      = .ok (exContract,
          { total := (exContract.storage_balance_bounds).min, available := 0 }) ∧
    (exContract.storage_balance_bounds).min
      = (exContract.storage_balance_bounds).max :=
  storage_withdraw_zero_headroom envBob exContract 30 3 rfl (by decide) (by decide)

/-- Claim C1: resolving a transfer-and-call of amount A settles on
refund = min(u, receiver's current balance), where u is the reported
unused amount, clamped to [0, A], with failed or malformed replies
counting as u = A; a positive refund debits the receiver by it and, when
the sender is still registered, credits the sender with total supply
unchanged; when the sender is unregistered the refund is instead burned,
decreasing total supply by the refund and emitting a log naming the
sender and the burned amount; the returned used_amount is A - refund. -/
theorem ft_resolve_transfer_settlement (c : Contract) (s r : String) (A : Nat)
    (reply : Reply) (hsr : s ≠ r)
    (hsum : sumBal c.token.accounts = c.token.total_supply) :
    (c.ft_resolve_transfer s r A reply).used_amount
        = A - resolveRefund c r A reply ∧
    replyUnused A reply ≤ A ∧
    (resolveRefund c r A reply = 0 →
      (c.ft_resolve_transfer s r A reply).state = c ∧
      (c.ft_resolve_transfer s r A reply).burned_amount = 0 ∧
      (c.ft_resolve_transfer s r A reply).logs = []) ∧
    (0 < resolveRefund c r A reply →
      (c.ft_resolve_transfer s r A reply).state.ft_balance_of r
          + resolveRefund c r A reply = c.ft_balance_of r ∧
      ((getBal c.token.accounts s).isSome →
        (c.ft_resolve_transfer s r A reply).state.ft_balance_of s
            = c.ft_balance_of s + resolveRefund c r A reply ∧
        (c.ft_resolve_transfer s r A reply).state.ft_total_supply
            = c.ft_total_supply ∧
        (c.ft_resolve_transfer s r A reply).burned_amount = 0 ∧
        (c.ft_resolve_transfer s r A reply).logs = []) ∧
      (getBal c.token.accounts s = none →
        (c.ft_resolve_transfer s r A reply).state.ft_total_supply
            + resolveRefund c r A reply = c.ft_total_supply ∧
        (c.ft_resolve_transfer s r A reply).burned_amount
            = resolveRefund c r A reply ∧
        (c.ft_resolve_transfer s r A reply).logs
            = [burnLog s (resolveRefund c r A reply)])) := by
  have hclamp : replyUnused A reply ≤ A := by
    cases reply with
    | value u => simp [replyUnused]
    | failed => simp [replyUnused]
  by_cases h0 : resolveRefund c r A reply = 0
  · have hcall : c.ft_resolve_transfer s r A reply
        = { state := c, used_amount := A - resolveRefund c r A reply
            burned_amount := 0, logs := [] } := by
      simp only [Contract.ft_resolve_transfer]
      rw [if_pos h0]
    refine ⟨by rw [hcall], hclamp,
      fun _ => ⟨by rw [hcall], by rw [hcall], by rw [hcall]⟩, fun hpos => ?_⟩
    omega
  · have hpos : 0 < resolveRefund c r A reply := Nat.pos_of_ne_zero h0
    obtain ⟨rb, hrb⟩ : ∃ rb, getBal c.token.accounts r = some rb := by
      cases hg : getBal c.token.accounts r with
      | some rb => exact ⟨rb, rfl⟩
      | none =>
        exfalso
        apply h0
        simp [resolveRefund, hg]
    have hrbD : (getBal c.token.accounts r).getD 0 = rb := by rw [hrb]; rfl
    have href_le : resolveRefund c r A reply ≤ rb := by
      rw [resolveRefund, hrbD]
      exact Nat.min_le_right _ _
    have hrb_le : rb ≤ c.token.total_supply := hsum ▸ getBal_le_sumBal hrb
    have hacc1r : getBal (setBal c.token.accounts r
          (rb - resolveRefund c r A reply)) r
        = some (rb - resolveRefund c r A reply) :=
      getBal_setBal_self _ hrb
    have hacc1s : getBal (setBal c.token.accounts r
          (rb - resolveRefund c r A reply)) s
        = getBal c.token.accounts s :=
      getBal_setBal_ne _ _ (Ne.symm hsr)
    cases hS : getBal c.token.accounts s with
    | some sb =>
      have hcall : c.ft_resolve_transfer s r A reply
          = { state := { c with token :=
                { accounts := setBal (setBal c.token.accounts r
                      (rb - resolveRefund c r A reply)) s
                      (sb + resolveRefund c r A reply)
                  total_supply := c.token.total_supply } }
              used_amount := A - resolveRefund c r A reply
              burned_amount := 0
              logs := [] } := by
        simp only [Contract.ft_resolve_transfer]
        rw [if_neg h0, hrbD]
        rw [hacc1s, hS]
      have hgetr : getBal (setBal (setBal c.token.accounts r
            (rb - resolveRefund c r A reply)) s
            (sb + resolveRefund c r A reply)) r
          = some (rb - resolveRefund c r A reply) := by
        rw [getBal_setBal_ne _ _ hsr]
        exact hacc1r
      have hgets : getBal (setBal (setBal c.token.accounts r
            (rb - resolveRefund c r A reply)) s
            (sb + resolveRefund c r A reply)) s
          = some (sb + resolveRefund c r A reply) :=
        getBal_setBal_self _ (hacc1s.trans hS)
      refine ⟨by rw [hcall], hclamp, fun hz => absurd hz h0, fun _ => ⟨?_, ?_, ?_⟩⟩
      · rw [hcall]
        simp only [Contract.ft_balance_of, hgetr, hrb, Option.getD_some]
        omega
      · intro _
        rw [hcall]
        refine ⟨?_, rfl, rfl, rfl⟩
        simp only [Contract.ft_balance_of, hgets, hS, Option.getD_some]
      · intro habs
        simp at habs
    | none =>
      have hcall : c.ft_resolve_transfer s r A reply
          = { state := { c with token :=
                { accounts := setBal c.token.accounts r
                      (rb - resolveRefund c r A reply)
                  total_supply := c.token.total_supply
                      - resolveRefund c r A reply } }
              used_amount := A - resolveRefund c r A reply
              burned_amount := resolveRefund c r A reply
              logs := [burnLog s (resolveRefund c r A reply)] } := by
        simp only [Contract.ft_resolve_transfer]
        rw [if_neg h0, hrbD]
        rw [hacc1s, hS]
      refine ⟨by rw [hcall], hclamp, fun hz => absurd hz h0, fun _ => ⟨?_, ?_, ?_⟩⟩
      · rw [hcall]
        simp only [Contract.ft_balance_of, hacc1r, hrb, Option.getD_some]
        omega
      · intro habs
        simp at habs
      · intro _
        rw [hcall]
        refine ⟨?_, rfl, rfl⟩
        simp only [Contract.ft_total_supply]
        omega

/-- Claim C1 witness: bob's transfer-and-call to alice of 10 with a
reply reporting 4 unused. -/
theorem ft_resolve_transfer_settlement_witness :
    (exContract.ft_resolve_transfer "bob" "alice" 10 (Reply.value 4)).used_amount
        = 10 - resolveRefund exContract "alice" 10 (Reply.value 4) ∧
    replyUnused 10 (Reply.value 4) ≤ 10 :=
  ⟨(ft_resolve_transfer_settlement exContract "bob" "alice" 10 (Reply.value 4)
      (by decide) (by decide)).1,
   (ft_resolve_transfer_settlement exContract "bob" "alice" 10 (Reply.value 4)
      (by decide) (by decide)).2.1⟩

end Itlx
